import Mathlib

set_option autoImplicit false

/-!
Shallow embedding of the request-gatekeeper subsystem of the Go user-management
service: per-client token-bucket rate limiting (internal/middleware/rate_limit.go),
bearer-token authentication and role authorization (the middleware auth file),
and multipart upload validation and persistence (the middleware file_upload file
and the file handler).  Times and token counts are embedded as rationals,
byte buffers as lists of naturals, strings as lists of characters where
character-level reasoning is needed and as Lean strings otherwise.
-/

namespace GoStarter

/-! ## Structured API responses

Embeds `models.APIResponse` together with the HTTP status code the middleware
passes to `c.JSON`.  The `Error` field of the Go struct is `any` with
`omitempty`; a response that never sets it is embedded with `error = ""`. -/

structure Response where
  status : ℕ
  success : Bool
  message : String
  error : String
deriving DecidableEq, Repr

/-! ## Rate limiter

The registry (`RateLimiter`, `GetLimiter`, `CleanupLimiters`) is embedded from
`internal/middleware/rate_limit.go`.  The per-key bucket is the
`golang.org/x/time/rate.Limiter` dependency, whose source is not part of this
repository. -/

/-- Modelled from the spec: the continuous token bucket of the external
`golang.org/x/time/rate.Limiter` dependency (not part of this repository):
per-bucket state is {available tokens, last-refill instant} together with the
refill rate (tokens per second) and the capacity (burst). -/
structure Limiter where
  limit : ℚ
  burst : ℕ
  tokens : ℚ
  last : ℚ
deriving DecidableEq, Repr

/-- Modelled from the spec: a freshly created bucket holds full capacity
(first request from a new key always succeeds, up to burst). -/
def newLimiter (r : ℚ) (b : ℕ) (now : ℚ) : Limiter :=
  { limit := r, burst := b, tokens := (b : ℚ), last := now }

/-- Minimum of two rationals, written out so that concrete instances reduce in
the kernel. -/
def qmin (a b : ℚ) : ℚ := if a ≤ b then a else b

/-- Maximum of two rationals, written out so that concrete instances reduce in
the kernel. -/
def qmax (a b : ℚ) : ℚ := if a ≤ b then b else a

/-- Modelled from the spec: the token count at instant `now`, i.e. the stored
tokens plus `elapsed × rate`, capped at capacity (`Limiter.TokensAt`).  A clock
that did not advance contributes nothing (`qmax 0`). -/
def tokensAt (l : Limiter) (now : ℚ) : ℚ :=
  qmin (l.burst : ℚ) (l.tokens + qmax 0 (now - l.last) * l.limit)

/-- Modelled from the spec: `allow` refills by elapsed time, and if at least one
token is available (and the burst admits a single request at all) deducts one
and returns true; on failure the bucket is left unchanged
(`Limiter.Allow` = `AllowN(now, 1)`). -/
def allow (l : Limiter) (now : ℚ) : Bool × Limiter :=
  let t := tokensAt l now
  if 1 ≤ l.burst ∧ 1 ≤ t then
    (true, { l with tokens := t - 1, last := now })
  else
    (false, l)

/-- Runs `allow` a given number of times in sequence, all at the same instant,
returning the list of results and the final bucket state. -/
def allowTimes (l : Limiter) (now : ℚ) : ℕ → List Bool × Limiter
  | 0 => ([], l)
  | n + 1 =>
    let r := allow l now
    let rest := allowTimes r.2 now n
    (r.1 :: rest.1, rest.2)

/-- Embeds the `RateLimiter` registry struct of rate_limit.go: a map from
client key to bucket (embedded as an association list) plus the rate and burst
used to create new buckets. -/
structure RateLimiter where
  limiters : List (String × Limiter)
  rate : ℚ
  burst : ℕ

/-- Embeds `NewRateLimiter`: empty registry with the given rate and burst. -/
def newRateLimiter (rps : ℚ) (burst : ℕ) : RateLimiter :=
  { limiters := [], rate := rps, burst := burst }

/-- Embeds `GetLimiter`: return the existing bucket for `key`, or lazily create
one (at the current instant) and register it. -/
def getLimiter (rl : RateLimiter) (key : String) (now : ℚ) : Limiter × RateLimiter :=
  match rl.limiters.lookup key with
  | some l => (l, rl)
  | none =>
    let l := newLimiter rl.rate rl.burst now
    (l, { rl with limiters := (key, l) :: rl.limiters })

/-- Embeds one sweep of `CleanupLimiters`: delete every bucket whose token
count at sweep time equals the registry burst (`limiter.TokensAt(time.Now()) ==
float64(rl.burst)`), keep all others unchanged. -/
def cleanupLimiters (rl : RateLimiter) (now : ℚ) : RateLimiter :=
  { rl with limiters :=
      rl.limiters.filter (fun kv => decide (tokensAt kv.2 now ≠ (rl.burst : ℚ))) }

/-- Embeds the 429 response of `RateLimitMiddleware`. -/
def rateLimitResponse : Response :=
  { status := 429, success := false
    message := "Rate limit exceeded. Please try again later."
    error := "RATE_LIMIT_EXCEEDED" }

/-- Outcome of a middleware stage: pass control on, or abort with a terminal
response. -/
inductive RateOutcome where
  | proceed
  | reject (resp : Response)
deriving DecidableEq, Repr

/-- Embeds the request path of `RateLimitMiddleware`: fetch (or lazily create)
the bucket for the client key, run `Allow`, and either continue or abort with
the 429 response; returns the updated registry. -/
def rateLimitCheck (rl : RateLimiter) (key : String) (now : ℚ) :
    RateOutcome × RateLimiter :=
  let r := getLimiter rl key now
  let a := allow r.1 now
  let updated := r.2.limiters.map (fun kv => if kv.1 = key then (kv.1, a.2) else kv)
  let rl2 := { r.2 with limiters := updated }
  (if a.1 then RateOutcome.proceed else RateOutcome.reject rateLimitResponse, rl2)

/-! ## Token authentication and role authorization

Embedded from the auth middleware file (`AuthMidddleware`, `RequireRole`).
Token verification itself (`utils.ValidateToken`) lives outside the gatekeeper
middleware, so `authMiddleware` takes the verifier as a parameter; only its
`Except`-shaped outcome matters to the middleware. -/

/-- Failure kinds a token verifier can report (malformed token, expired token,
bad signature).  The middleware collapses all of them to one response. -/
inductive TokenError where
  | malformed
  | expired
  | badSignature
deriving DecidableEq, Repr

/-- Identity claims produced by successful token verification. -/
structure Claims where
  userID : String
  email : String
  role : String
deriving DecidableEq, Repr

/-- Embeds the 401 response for an absent Authorization header; the Go code
sets no `Error` field. -/
def authMissingHeaderResponse : Response :=
  { status := 401, success := false
    message := "Authorization header is required", error := "" }

/-- Embeds the 401 response for a header without the `Bearer ` scheme
(the truncated message is faithful to the source); no `Error` field is set. -/
def authBadSchemeResponse : Response :=
  { status := 401, success := false
    message := "Invalid authorization heade", error := "" }

/-- Embeds the 401 response for a failed token verification; no `Error` field
is set, and the response does not depend on the failure kind. -/
def authInvalidTokenResponse : Response :=
  { status := 401, success := false
    message := "Invalid or expired token", error := "" }

/-- Outcome of the authentication stage. -/
inductive AuthOutcome where
  | reject (resp : Response)
  | proceed (claims : Claims)
deriving DecidableEq, Repr

/-- Literal scheme the header must start with: `Bearer ` with a single
trailing space, case-sensitive. -/
def bearerScheme : List Char := "Bearer ".data

/-- Embeds `AuthMidddleware`: reject with 401 when the header is empty/absent,
reject with 401 when it does not start with the literal `Bearer ` scheme,
otherwise verify the remainder and reject with one fixed 401 response on any
verification failure. -/
def authMiddleware (validateToken : List Char → Except TokenError Claims)
    (authHeader : List Char) : AuthOutcome :=
  if authHeader = [] then
    AuthOutcome.reject authMissingHeaderResponse
  else if bearerScheme.isPrefixOf authHeader then
    match validateToken (authHeader.drop bearerScheme.length) with
    | Except.error _ => AuthOutcome.reject authInvalidTokenResponse
    | Except.ok claims => AuthOutcome.proceed claims
  else
    AuthOutcome.reject authBadSchemeResponse

/-- Embeds the 403 response of `RequireRole` when no role is in the context. -/
def forbiddenNoRoleResponse : Response :=
  { status := 403, success := false
    message := "Unauthorized access", error := "" }

/-- Embeds the 403 response of `RequireRole` for a role mismatch. -/
def forbiddenResponse : Response :=
  { status := 403, success := false
    message := "Insufficient permissions", error := "" }

/-- Embeds `RequireRole`: 403 when the context holds no role, pass when the
role is among the allowed ones, 403 otherwise. -/
def requireRole (roles : List String) (userRole : Option String) : RateOutcome :=
  match userRole with
  | none => RateOutcome.reject forbiddenNoRoleResponse
  | some role =>
    if role ∈ roles then RateOutcome.proceed
    else RateOutcome.reject forbiddenResponse

/-! ## Upload validation and persistence

Embedded from the file-upload middleware (`FileUploadMiddleware`,
`validateFile`, `generateUniqueFilename`, the named configurations) and the
`uploadedFiles` context handoff consumed by the `UploadFile` handler.
Filenames are lists of characters; file bodies are lists of bytes. -/

/-- Helper for `filepathExt`: scans the reversed path, accumulating characters
until the final dot (returning the extension) or a path separator or the start
of the string (returning the empty extension). -/
def extAux (acc : List Char) : List Char → List Char
  | [] => []
  | c :: rest =>
    if c = '/' then []
    else if c = '.' then c :: acc
    else extAux (c :: acc) rest

/-- Embeds `filepath.Ext`: the suffix beginning at the final dot in the final
path element, empty if there is no dot (path separator embedded as `/`). -/
def filepathExt (path : List Char) : List Char :=
  extAux [] path.reverse

/-- Embeds `filepath.Join` of the two path components, without the cleaning of
redundant separators (irrelevant to the properties below): an empty first
component yields the second, otherwise the components are joined with `/`. -/
def filepathJoin (dir name : List Char) : List Char :=
  if dir = [] then name else dir ++ '/' :: name

/-- Embeds `filepath.ToSlash`: replace the OS path separator by `/` (embedded
over the backslash separator; on the slash separator it is the identity). -/
def toSlash (path : List Char) : List Char :=
  path.map (fun c => if c = '\\' then '/' else c)

/-- Embeds `generateUniqueFilename` (identical in the middleware and the file
handler): `name_timestamp_id` followed by the original extension, where `name`
is the original filename with the extension removed.  The timestamp observed at
generation time and the fresh ObjectID hex string are parameters of the
embedding. -/
def generateUniqueFilename (originalFilename : List Char) (timestamp : ℤ)
    (id : List Char) : List Char :=
  let ext := filepathExt originalFilename
  let name := originalFilename.take (originalFilename.length - ext.length)
  name ++ '_' :: (toString timestamp).data ++ '_' :: id ++ ext

/-- One multipart file part: its client-supplied filename, the size recorded in
the part header, and its actual bytes. -/
structure FileHeader where
  filename : List Char
  size : ℤ
  content : List ℕ
deriving DecidableEq, Repr

/-- Embeds `FileUploadConfig`. -/
structure FileUploadConfig where
  MaxFileSize : ℤ
  AllowedTypes : List String
  AllowedExts : List (List Char)
  UploadPath : List Char
  FieldName : String
  Required : Bool
  MaxFiles : ℕ
deriving DecidableEq, Repr

/-- Embeds `DefaultFileUploadConfig` (10MB, images and PDF). -/
def DefaultFileUploadConfig : FileUploadConfig :=
  { MaxFileSize := 10485760
    AllowedTypes := ["image/jpeg", "image/png", "image/gif", "application/pdf"]
    AllowedExts := [".jpg".data, ".jpeg".data, ".png".data, ".gif".data, ".pdf".data]
    UploadPath := "./uploads".data
    FieldName := "file"
    Required := true
    MaxFiles := 1 }

/-- Embeds `ImageUploadConfig` (5MB, images only). -/
def ImageUploadConfig : FileUploadConfig :=
  { MaxFileSize := 5242880
    AllowedTypes := ["image/jpeg", "image/png", "image/gif", "image/webp"]
    AllowedExts := [".jpg".data, ".jpeg".data, ".png".data, ".gif".data, ".webp".data]
    UploadPath := "./uploads/images".data
    FieldName := "image"
    Required := true
    MaxFiles := 1 }

/-- Embeds `DocumentUploadConfig` (20MB, PDF and Word documents). -/
def DocumentUploadConfig : FileUploadConfig :=
  { MaxFileSize := 20971520
    AllowedTypes := ["application/pdf", "application/msword",
      "application/vnd.openxmlformats-officedocument.wordprocessingml.document"]
    AllowedExts := [".pdf".data, ".doc".data, ".docx".data]
    UploadPath := "./uploads/documents".data
    FieldName := "document"
    Required := true
    MaxFiles := 1 }

/-- The 512-byte buffer `validateFile` hands to the content-type detector: the
file's first bytes in a zero-initialized buffer of 512 bytes (`make([]byte,
512)` filled by a single `Read`). -/
def sniffBuffer (content : List ℕ) : List ℕ :=
  content.take 512 ++ List.replicate (512 - (content.take 512).length) 0

/-- Modelled from the spec: the content-sniffing classifier
(`http.DetectContentType`, standard library, not part of this repository),
which classifies the byte buffer independent of any client-declared type or
filename, restricted to the signatures relevant to the configured allowed-type
sets plus executables; unmatched buffers fall back to the generic binary
type. -/
def detectContentType (data : List ℕ) : String :=
  if [0xFF, 0xD8, 0xFF].isPrefixOf data then "image/jpeg"
  else if [0x89, 0x50, 0x4E, 0x47, 0x0D, 0x0A, 0x1A, 0x0A].isPrefixOf data then "image/png"
  else if [0x47, 0x49, 0x46, 0x38, 0x37, 0x61].isPrefixOf data then "image/gif"
  else if [0x47, 0x49, 0x46, 0x38, 0x39, 0x61].isPrefixOf data then "image/gif"
  else if [0x25, 0x50, 0x44, 0x46, 0x2D].isPrefixOf data then "application/pdf"
  else if [0x52, 0x49, 0x46, 0x46].isPrefixOf data then "image/webp"
  else if [0x4D, 0x5A].isPrefixOf data then "application/x-msdownload"
  else "application/octet-stream"

/-- Failure kinds of `validateFile`, in the order the checks run. -/
inductive ValidationFailure where
  | fileTooLarge
  | disallowedExtension
  | readFailure
  | disallowedContentType
deriving DecidableEq, Repr

/-- Embeds `validateFile`: size check against `MaxFileSize`, then
case-insensitive extension check against `AllowedExts`, then the content sniff
of the 512-byte buffer against `AllowedTypes`.  A single `Read` on an empty
file returns an error in the source, embedded as `readFailure`. -/
def validateFile (fh : FileHeader) (config : FileUploadConfig) :
    Option ValidationFailure :=
  if config.MaxFileSize < fh.size then some ValidationFailure.fileTooLarge
  else if ¬ (filepathExt fh.filename).map Char.toLower ∈ config.AllowedExts then
    some ValidationFailure.disallowedExtension
  else if fh.content.length = 0 then some ValidationFailure.readFailure
  else if ¬ detectContentType (sniffBuffer fh.content) ∈ config.AllowedTypes then
    some ValidationFailure.disallowedContentType
  else none

/-- Embeds the 400 response for a required field with no files. -/
def fileRequiredResponse (fieldName : String) : Response :=
  { status := 400, success := false
    message := "File field \x27" ++ fieldName ++ "\x27 is required"
    error := "FILE_REQUIRED" }

/-- Embeds the 400 response for too many files. -/
def tooManyFilesResponse (maxFiles : ℕ) : Response :=
  { status := 400, success := false
    message := "Maximum " ++ toString maxFiles ++ " files allowed"
    error := "TOO_MANY_FILES" }

/-- Message text of a `validateFile` failure (the listing of the allowed sets
appended by the source via `%v` is elided). -/
def validationMessage : ValidationFailure → String
  | ValidationFailure.fileTooLarge => "file size exceeds maximum allowed size"
  | ValidationFailure.disallowedExtension => "file extension not allowed"
  | ValidationFailure.readFailure => "failed to read file for validation"
  | ValidationFailure.disallowedContentType => "file type not allowed"

/-- Embeds the 400 response for a file failing `validateFile`. -/
def fileValidationFailedResponse (f : ValidationFailure) : Response :=
  { status := 400, success := false
    message := validationMessage f
    error := "FILE_VALIDATION_FAILED" }

/-- Embeds the 500 response for a failed `os.MkdirAll`. -/
def directoryCreationFailedResponse : Response :=
  { status := 500, success := false
    message := "Failed to create upload directory"
    error := "DIRECTORY_CREATION_FAILED" }

/-- Embeds the 500 response for a failed `c.SaveUploadedFile`. -/
def fileSaveFailedResponse : Response :=
  { status := 500, success := false
    message := "Failed to save file"
    error := "FILE_SAVE_FAILED" }

/-- Dynamic type of a value stored in the request context under
`uploadedFiles`: the middleware stores a list of path strings, the handler
asserts a list of multipart file headers. -/
inductive ContextValue where
  | strList (paths : List (List Char))
  | fileHeaderList (files : List FileHeader)
deriving DecidableEq, Repr

/-- Result of the upload middleware: abort with a terminal response, or pass
control on with the context value stored under `uploadedFiles`; either way
`written` lists the slash-normalized paths of the files persisted to disk. -/
inductive UploadResult where
  | abort (resp : Response) (written : List (List Char))
  | next (written : List (List Char)) (uploadedFiles : ContextValue)
deriving DecidableEq, Repr

/-- Embeds the persistence loop of `FileUploadMiddleware`: for each file,
create the destination directory (failure aborts with 500), generate a unique
name, save the file (failure aborts with 500), and accumulate the
slash-normalized path; at the end the path list is stored in the context.
Filesystem effects are embedded by the `mkdirOk` and `saveOk` oracles and the
per-file ObjectID generator `genId`. -/
def saveFiles (config : FileUploadConfig) (mkdirOk : Bool)
    (saveOk : FileHeader → Bool) (timestamp : ℤ) (genId : ℕ → List Char) :
    List FileHeader → ℕ → List (List Char) → UploadResult
  | [], _, savedPaths => UploadResult.next savedPaths (ContextValue.strList savedPaths)
  | fh :: rest, i, savedPaths =>
    if ¬ mkdirOk then UploadResult.abort directoryCreationFailedResponse savedPaths
    else
      let filename := generateUniqueFilename fh.filename timestamp (genId i)
      let path := toSlash (filepathJoin config.UploadPath filename)
      if ¬ saveOk fh then UploadResult.abort fileSaveFailedResponse savedPaths
      else saveFiles config mkdirOk saveOk timestamp genId rest (i + 1)
        (savedPaths ++ [path])

/-- Embeds `FileUploadMiddleware` from the point the multipart form is parsed:
required-field check, file-count check, validation of every file (abort on the
first failure, before anything is written), then the persistence loop. -/
def fileUploadMiddleware (config : FileUploadConfig) (files : List FileHeader)
    (mkdirOk : Bool) (saveOk : FileHeader → Bool) (timestamp : ℤ)
    (genId : ℕ → List Char) : UploadResult :=
  if config.Required ∧ files.length = 0 then
    UploadResult.abort (fileRequiredResponse config.FieldName) []
  else if config.MaxFiles < files.length then
    UploadResult.abort (tooManyFilesResponse config.MaxFiles) []
  else
    match files.findSome? (fun fh => validateFile fh config) with
    | some f => UploadResult.abort (fileValidationFailedResponse f) []
    | none => saveFiles config mkdirOk saveOk timestamp genId files 0 []

/-- Embeds the unchecked type assertion `uploadedFiles.([]*multipart.FileHeader)`
in the `UploadFile` handler: it yields a file-header list exactly when the
stored value has that dynamic type, and panics (embedded as `none`)
otherwise. -/
def assertFileHeaders : ContextValue → Option (List FileHeader)
  | ContextValue.fileHeaderList files => some files
  | ContextValue.strList _ => none

/-! ## Helper lemmas -/

theorem qmin_eq_min (a b : ℚ) : qmin a b = min a b := (min_def a b).symm

theorem qmax_eq_max (a b : ℚ) : qmax a b = max a b := (max_def a b).symm

theorem tokensAt_le_burst (l : Limiter) (now : ℚ) : tokensAt l now ≤ (l.burst : ℚ) := by
  rw [tokensAt, qmin_eq_min]
  exact min_le_left _ _

theorem tokensAt_last (l : Limiter) (h : l.tokens ≤ (l.burst : ℚ)) :
    tokensAt l l.last = l.tokens := by
  rw [tokensAt, qmin_eq_min, qmax_eq_max, sub_self, max_self, zero_mul, add_zero,
    min_eq_right h]

theorem tokensAt_shift (l : Limiter) (w : ℚ) (h0 : l.tokens = 0) (hw : 0 ≤ w) :
    tokensAt l (l.last + w) = min (l.burst : ℚ) (w * l.limit) := by
  rw [tokensAt, qmin_eq_min, qmax_eq_max, h0, add_sub_cancel_left, max_eq_right hw,
    zero_add]

theorem allow_pos (l : Limiter) (now : ℚ) (hb : 1 ≤ l.burst) (ht : 1 ≤ tokensAt l now) :
    allow l now = (true, { l with tokens := tokensAt l now - 1, last := now }) := by
  simp [allow, hb, ht]

theorem allow_neg (l : Limiter) (now : ℚ) (ht : tokensAt l now < 1) :
    allow l now = (false, l) := by
  simp [allow, ht.not_le]

theorem allowTimes_drain :
    ∀ (k : ℕ) (l : Limiter) (now : ℚ), l.last = now → l.tokens = (k : ℚ) →
      k ≤ l.burst →
      allowTimes l now k = (List.replicate k true, { l with tokens := 0, last := now })
  | 0, l, now, hlast, htok, _ => by
    cases l
    simp_all [allowTimes]
  | k + 1, l, now, hlast, htok, hk => by
    have hb : 1 ≤ l.burst := le_trans (Nat.succ_le_succ (Nat.zero_le k)) hk
    have htokle : l.tokens ≤ (l.burst : ℚ) := by
      rw [htok]
      exact_mod_cast hk
    have htnow : tokensAt l now = ((k + 1 : ℕ) : ℚ) := by
      rw [← hlast, tokensAt_last l htokle, htok]
    have hone : 1 ≤ tokensAt l now := by
      rw [htnow]
      exact_mod_cast Nat.succ_le_succ (Nat.zero_le k)
    have hstep := allow_pos l now hb hone
    have hrec := allowTimes_drain k { l with tokens := tokensAt l now - 1, last := now }
      now rfl (by show tokensAt l now - 1 = _; rw [htnow]; push_cast; ring)
      (le_trans (Nat.le_succ k) hk)
    rw [allowTimes, hstep, hrec, List.replicate_succ]

/-! ## Claim theorems -/

/-- C1 (amended): every client key's bucket is created lazily on the first
allow call with full capacity and registered; for burst `C ≥ 1` the first
request from a new key is allowed; `C` consecutive immediate allow calls all
return true and the `(C+1)`-th returns false; and after waiting `w` seconds
with `1/R ≤ w < 2/R`, exactly one more allow call returns true (the next call
succeeds and an immediately following one fails).  The amendment bounds the
wait by `2/R`: for longer waits more than one extra call succeeds (see the
counterexample). -/
theorem rateLimiter_lazy_bucket_lifecycle (rl : RateLimiter) (key : String) (now w : ℚ)
    (habs : rl.limiters.lookup key = none) (hb : 1 ≤ rl.burst) (hr : 0 < rl.rate)
    (hw1 : 1 / rl.rate ≤ w) (hw2 : w < 2 / rl.rate) :
    ((getLimiter rl key now).1).tokens = (rl.burst : ℚ) ∧
    ((getLimiter rl key now).2).limiters.lookup key = some ((getLimiter rl key now).1) ∧
    (allow ((getLimiter rl key now).1) now).1 = true ∧
    (allowTimes ((getLimiter rl key now).1) now rl.burst).1 = List.replicate rl.burst true ∧
    (allow ((allowTimes ((getLimiter rl key now).1) now rl.burst).2) now).1 = false ∧
    (allow ((allowTimes ((getLimiter rl key now).1) now rl.burst).2) (now + w)).1 = true ∧
    (allow ((allow ((allowTimes ((getLimiter rl key now).1) now rl.burst).2)
      (now + w)).2) (now + w)).1 = false := by
  have hfst : (getLimiter rl key now).1 = newLimiter rl.rate rl.burst now := by
    simp [getLimiter, habs]
  have hsnd : ((getLimiter rl key now).2).limiters =
      (key, newLimiter rl.rate rl.burst now) :: rl.limiters := by
    simp [getLimiter, habs]
  have hw0 : 0 ≤ w := le_trans (le_of_lt (one_div_pos.mpr hr)) hw1
  have hwr1 : 1 ≤ w * rl.rate := by
    have := (div_le_iff₀ hr).mp hw1
    linarith
  have hwr2 : w * rl.rate < 2 := by
    have := (lt_div_iff₀ hr).mp hw2
    linarith
  have hb1 : (1 : ℚ) ≤ (rl.burst : ℚ) := by exact_mod_cast hb
  have hdrain : allowTimes (newLimiter rl.rate rl.burst now) now rl.burst =
      (List.replicate rl.burst true, (⟨rl.rate, rl.burst, 0, now⟩ : Limiter)) :=
    allowTimes_drain rl.burst (newLimiter rl.rate rl.burst now) now rfl rfl (le_refl _)
  have htfull : tokensAt (newLimiter rl.rate rl.burst now) now = (rl.burst : ℚ) :=
    tokensAt_last (newLimiter rl.rate rl.burst now) (le_refl _)
  have hl0t : tokensAt (⟨rl.rate, rl.burst, 0, now⟩ : Limiter) now = 0 :=
    tokensAt_last _ (Nat.cast_nonneg _)
  have hrefill : tokensAt (⟨rl.rate, rl.burst, 0, now⟩ : Limiter) (now + w) =
      min (rl.burst : ℚ) (w * rl.rate) :=
    tokensAt_shift _ w rfl hw0
  have hrefill1 : 1 ≤ tokensAt (⟨rl.rate, rl.burst, 0, now⟩ : Limiter) (now + w) := by
    rw [hrefill]
    exact le_min hb1 hwr1
  have hstep1 : allow (⟨rl.rate, rl.burst, 0, now⟩ : Limiter) (now + w) =
      (true, ⟨rl.rate, rl.burst,
        tokensAt (⟨rl.rate, rl.burst, 0, now⟩ : Limiter) (now + w) - 1, now + w⟩) :=
    allow_pos _ (now + w) hb hrefill1
  have hle2 : tokensAt (⟨rl.rate, rl.burst, 0, now⟩ : Limiter) (now + w) - 1 ≤
      (rl.burst : ℚ) :=
    le_trans (sub_le_self _ zero_le_one) (tokensAt_le_burst _ _)
  have heq2 : tokensAt (⟨rl.rate, rl.burst,
      tokensAt (⟨rl.rate, rl.burst, 0, now⟩ : Limiter) (now + w) - 1, now + w⟩ : Limiter)
      (now + w) =
      tokensAt (⟨rl.rate, rl.burst, 0, now⟩ : Limiter) (now + w) - 1 :=
    tokensAt_last _ hle2
  have hlt2 : tokensAt (⟨rl.rate, rl.burst,
      tokensAt (⟨rl.rate, rl.burst, 0, now⟩ : Limiter) (now + w) - 1, now + w⟩ : Limiter)
      (now + w) < 1 := by
    rw [heq2, hrefill]
    have := min_le_right (rl.burst : ℚ) (w * rl.rate)
    linarith
  refine ⟨?_, ?_, ?_, ?_, ?_, ?_, ?_⟩
  · rw [hfst]
    rfl
  · rw [hfst, hsnd]
    simp [List.lookup]
  · rw [hfst, allow_pos _ now hb (by rw [htfull]; exact hb1)]
  · rw [hfst, hdrain]
  · rw [hfst, hdrain]
    show (allow (⟨rl.rate, rl.burst, 0, now⟩ : Limiter) now).1 = false
    rw [allow_neg _ now (by rw [hl0t]; norm_num)]
  · rw [hfst, hdrain]
    show (allow (⟨rl.rate, rl.burst, 0, now⟩ : Limiter) (now + w)).1 = true
    rw [allow_pos _ (now + w) hb hrefill1]
  · rw [hfst, hdrain]
    show (allow (allow (⟨rl.rate, rl.burst, 0, now⟩ : Limiter) (now + w)).2 (now + w)).1
      = false
    rw [hstep1]
    show (allow (⟨rl.rate, rl.burst,
      tokensAt (⟨rl.rate, rl.burst, 0, now⟩ : Limiter) (now + w) - 1, now + w⟩ : Limiter)
      (now + w)).1 = false
    rw [allow_neg _ (now + w) hlt2]

/-- Witness for C1: a Strict-style registry (rate 1, burst 2) on a fresh key
drains in two immediate calls, the third fails, and after waiting exactly one
second one more call succeeds. -/
theorem rateLimiter_lazy_bucket_lifecycle_witness :
    (allowTimes ((getLimiter ⟨[], 1, 2⟩ "k" 0).1) 0 2).1 = List.replicate 2 true ∧
    (allow ((allowTimes ((getLimiter ⟨[], 1, 2⟩ "k" 0).1) 0 2).2) 0).1 = false ∧
    (allow ((allowTimes ((getLimiter ⟨[], 1, 2⟩ "k" 0).1) 0 2).2) (0 + 1)).1 = true := by
  have h := rateLimiter_lazy_bucket_lifecycle ⟨[], 1, 2⟩ "k" 0 1 rfl
    (by norm_num) (by norm_num) (by norm_num) (by norm_num)
  exact ⟨h.2.2.2.1, h.2.2.2.2.1, h.2.2.2.2.2.1⟩

/-- Counterexample for C1 as stated: with capacity 2 and rate 1, after the
bucket is drained a wait of 2 seconds is at least `1/R`, yet two further allow
calls return true, not exactly one. -/
theorem rateLimiter_wait_counterexample :
    1 / (⟨[], 1, 2⟩ : RateLimiter).rate ≤ (2 : ℚ) ∧
    (allowTimes ((getLimiter ⟨[], 1, 2⟩ "k" 0).1) 0 2).1 = [true, true] ∧
    (allow ((allowTimes ((getLimiter ⟨[], 1, 2⟩ "k" 0).1) 0 2).2) 2).1 = true ∧
    (allow ((allow ((allowTimes ((getLimiter ⟨[], 1, 2⟩ "k" 0).1) 0 2).2) 2).2) 2).1
      = true := by
  with_unfolding_all decide

/-- C6: a sweep of the registry removes exactly the buckets whose token count
at sweep time equals the registry's full capacity; a bucket whose token count
at sweep time is below capacity is never removed. -/
theorem cleanupLimiters_removes_full_buckets (rl : RateLimiter) (now : ℚ) (key : String)
    (l : Limiter) (hmem : (key, l) ∈ rl.limiters) :
    (tokensAt l now = (rl.burst : ℚ) →
      (key, l) ∉ (cleanupLimiters rl now).limiters) ∧
    (tokensAt l now < (rl.burst : ℚ) →
      (key, l) ∈ (cleanupLimiters rl now).limiters) := by
  constructor
  · intro hfull hin
    rw [cleanupLimiters] at hin
    have := (List.mem_filter.mp hin).2
    simp only [decide_eq_true_eq] at this
    exact this hfull
  · intro hlt
    rw [cleanupLimiters]
    exact List.mem_filter.mpr ⟨hmem, by simp only [decide_eq_true_eq]; exact ne_of_lt hlt⟩

/-- Witness for C6: in a registry with burst 2, an idle full bucket is removed
by the sweep and a partially drained one survives it. -/
theorem cleanupLimiters_removes_full_buckets_witness :
    ("a", (⟨1, 2, 2, 0⟩ : Limiter)) ∉
      (cleanupLimiters ⟨[("a", ⟨1, 2, 2, 0⟩), ("b", ⟨1, 2, 1, 0⟩)], 1, 2⟩ 0).limiters ∧
    ("b", (⟨1, 2, 1, 0⟩ : Limiter)) ∈
      (cleanupLimiters ⟨[("a", ⟨1, 2, 2, 0⟩), ("b", ⟨1, 2, 1, 0⟩)], 1, 2⟩ 0).limiters := by
  constructor
  · exact (cleanupLimiters_removes_full_buckets _ 0 "a" ⟨1, 2, 2, 0⟩
      (by with_unfolding_all decide)).1 (by with_unfolding_all decide)
  · exact (cleanupLimiters_removes_full_buckets _ 0 "b" ⟨1, 2, 1, 0⟩
      (by with_unfolding_all decide)).2 (by with_unfolding_all decide)

/-- C8: token counts never exceed capacity: a new bucket is created with
exactly full capacity, the refill caps at capacity, an allow call preserves the
bound, and the sweep only ever removes buckets (never alters one). -/
theorem tokens_never_exceed_capacity (l : Limiter) (now : ℚ) (r : ℚ) (b : ℕ)
    (rl : RateLimiter) (key : String) (l2 : Limiter)
    (h : l.tokens ≤ (l.burst : ℚ))
    (hmem : (key, l2) ∈ (cleanupLimiters rl now).limiters) :
    (newLimiter r b now).tokens = ((newLimiter r b now).burst : ℚ) ∧
    tokensAt l now ≤ (l.burst : ℚ) ∧
    ((allow l now).2).tokens ≤ (((allow l now).2).burst : ℚ) ∧
    (key, l2) ∈ rl.limiters := by
  refine ⟨rfl, tokensAt_le_burst l now, ?_, ?_⟩
  · rw [allow]
    split
    · exact le_trans (sub_le_self _ zero_le_one) (tokensAt_le_burst l now)
    · exact h
  · rw [cleanupLimiters] at hmem
    exact List.mem_filter.mp hmem |>.1

/-- Witness for C8: the capacity bound evaluated on a half-drained bucket of a
one-entry registry. -/
theorem tokens_never_exceed_capacity_witness :
    (newLimiter 1 2 0).tokens = ((newLimiter 1 2 0).burst : ℚ) ∧
    tokensAt ⟨1, 2, 1, 0⟩ 0 ≤ ((⟨1, 2, 1, 0⟩ : Limiter).burst : ℚ) ∧
    ((allow ⟨1, 2, 1, 0⟩ 0).2).tokens ≤ (((allow ⟨1, 2, 1, 0⟩ 0).2).burst : ℚ) ∧
    ("b", (⟨1, 2, 1, 0⟩ : Limiter)) ∈
      (⟨[("b", ⟨1, 2, 1, 0⟩)], 1, 2⟩ : RateLimiter).limiters :=
  tokens_never_exceed_capacity ⟨1, 2, 1, 0⟩ 0 1 2 ⟨[("b", ⟨1, 2, 1, 0⟩)], 1, 2⟩ "b"
    ⟨1, 2, 1, 0⟩ (by with_unfolding_all decide) (by with_unfolding_all decide)

/-- C3: authentication rejects with 401 when the Authorization header is
absent, with 401 when it does not start with the literal case-sensitive
`Bearer ` scheme (a lowercase `bearer` is rejected), and otherwise verifies the
remainder; every verification failure — whatever its kind `e` — yields the one
fixed 401 response, so the client cannot distinguish malformed, expired and
bad-signature tokens. -/
theorem authMiddleware_collapses_failures
    (v : List Char → Except TokenError Claims) (hdr hdr2 : List Char) (e : TokenError)
    (hne : hdr ≠ []) (hnp : bearerScheme.isPrefixOf hdr = false)
    (hp2 : bearerScheme.isPrefixOf hdr2 = true)
    (hv : v (hdr2.drop bearerScheme.length) = Except.error e) :
    authMiddleware v [] = AuthOutcome.reject authMissingHeaderResponse ∧
    authMiddleware v hdr = AuthOutcome.reject authBadSchemeResponse ∧
    authMiddleware v hdr2 = AuthOutcome.reject authInvalidTokenResponse ∧
    authMiddleware v "bearer abc".data = AuthOutcome.reject authBadSchemeResponse ∧
    authMissingHeaderResponse.status = 401 ∧ authBadSchemeResponse.status = 401 ∧
    authInvalidTokenResponse.status = 401 := by
  have hne2 : hdr2 ≠ [] := by
    intro h
    subst h
    exact absurd hp2 (by decide)
  refine ⟨by simp [authMiddleware], by simp [authMiddleware, hne, hnp], ?_, rfl,
    rfl, rfl, rfl⟩
  simp [authMiddleware, hne2, hp2, hv]

/-- Witness for C3: a missing header, a `Basic` header, a well-formed bearer
header whose token the verifier rejects as expired, and a lowercase `bearer`
header are all turned into the respective fixed 401 responses. -/
theorem authMiddleware_collapses_failures_witness :
    authMiddleware (fun _ => Except.error TokenError.expired) [] =
      AuthOutcome.reject authMissingHeaderResponse ∧
    authMiddleware (fun _ => Except.error TokenError.expired) "Basic abc".data =
      AuthOutcome.reject authBadSchemeResponse ∧
    authMiddleware (fun _ => Except.error TokenError.expired) "Bearer abc".data =
      AuthOutcome.reject authInvalidTokenResponse ∧
    authMiddleware (fun _ => Except.error TokenError.expired) "bearer abc".data =
      AuthOutcome.reject authBadSchemeResponse ∧
    authMissingHeaderResponse.status = 401 ∧ authBadSchemeResponse.status = 401 ∧
    authInvalidTokenResponse.status = 401 :=
  authMiddleware_collapses_failures (fun _ => Except.error TokenError.expired)
    "Basic abc".data "Bearer abc".data TokenError.expired (by decide) (by decide)
    (by decide) rfl

/-- Counterexample for C7 as stated: the missing-header 401 rejection and the
role-mismatch 403 rejection carry an empty `error` field — no machine-readable
tag at all, in particular not `Unauthorized` or `Forbidden`. -/
theorem rejection_tag_counterexample :
    authMissingHeaderResponse.status = 401 ∧ authMissingHeaderResponse.error = "" ∧
    ¬ authMissingHeaderResponse.error = "Unauthorized" ∧
    authInvalidTokenResponse.error = "" ∧
    forbiddenResponse.status = 403 ∧ forbiddenResponse.error = "" ∧
    ¬ forbiddenResponse.error = "Forbidden" := by
  decide

/-- C7 (amended): every gatekeeper rejection is structured with
`success = false` and the stated status codes — 401 for missing/invalid/expired
token, 403 for role mismatch, 429 for rate limiting (tag
`RATE_LIMIT_EXCEEDED`), 400 for upload validation failures (tags
`FILE_REQUIRED`, `TOO_MANY_FILES`, `FILE_VALIDATION_FAILED`) — but the auth 401
and role 403 rejections carry an empty error tag rather than
`Unauthorized`/`Forbidden` ones. -/
theorem rejection_responses_structured :
    (∀ (v : List Char → Except TokenError Claims) (hdr : List Char) (r : Response),
      authMiddleware v hdr = AuthOutcome.reject r →
        r.status = 401 ∧ r.success = false ∧ r.error = "") ∧
    (∀ (roles : List String) (userRole : Option String) (r : Response),
      requireRole roles userRole = RateOutcome.reject r →
        r.status = 403 ∧ r.success = false ∧ r.error = "") ∧
    (∀ (rl : RateLimiter) (key : String) (now : ℚ) (r : Response),
      (rateLimitCheck rl key now).1 = RateOutcome.reject r → r = rateLimitResponse) ∧
    rateLimitResponse.status = 429 ∧ rateLimitResponse.success = false ∧
    rateLimitResponse.error = "RATE_LIMIT_EXCEEDED" ∧
    (∀ fieldName, (fileRequiredResponse fieldName).status = 400 ∧
      (fileRequiredResponse fieldName).success = false ∧
      (fileRequiredResponse fieldName).error = "FILE_REQUIRED") ∧
    (∀ n, (tooManyFilesResponse n).status = 400 ∧
      (tooManyFilesResponse n).success = false ∧
      (tooManyFilesResponse n).error = "TOO_MANY_FILES") ∧
    (∀ f, (fileValidationFailedResponse f).status = 400 ∧
      (fileValidationFailedResponse f).success = false ∧
      (fileValidationFailedResponse f).error = "FILE_VALIDATION_FAILED") := by
  refine ⟨?_, ?_, ?_, rfl, rfl, rfl, fun _ => ⟨rfl, rfl, rfl⟩, fun _ => ⟨rfl, rfl, rfl⟩,
    fun _ => ⟨rfl, rfl, rfl⟩⟩
  · intro v hdr r h
    rw [authMiddleware] at h
    split at h
    · injection h with h
      subst h
      exact ⟨rfl, rfl, rfl⟩
    · split at h
      · split at h
        · injection h with h
          subst h
          exact ⟨rfl, rfl, rfl⟩
        · cases h
      · injection h with h
        subst h
        exact ⟨rfl, rfl, rfl⟩
  · intro roles userRole r h
    rw [requireRole.eq_def] at h
    split at h
    · injection h with h
      subst h
      exact ⟨rfl, rfl, rfl⟩
    · split at h
      · cases h
      · injection h with h
        subst h
        exact ⟨rfl, rfl, rfl⟩
  · intro rl key now r h
    simp only [rateLimitCheck] at h
    split at h
    · cases h
    · injection h with h
      exact h.symm

/-- Witness for C7 (amended): the shape facts evaluated on a missing-header
rejection, a concrete role mismatch, and a zero-burst rate limiter. -/
theorem rejection_responses_structured_witness :
    (authMissingHeaderResponse.status = 401 ∧ authMissingHeaderResponse.success = false ∧
      authMissingHeaderResponse.error = "") ∧
    (forbiddenResponse.status = 403 ∧ forbiddenResponse.success = false ∧
      forbiddenResponse.error = "") ∧
    rateLimitResponse = rateLimitResponse :=
  ⟨rejection_responses_structured.1 (fun _ => Except.error TokenError.expired) []
      authMissingHeaderResponse rfl,
    rejection_responses_structured.2.1 ["admin"] (some "user") forbiddenResponse
      (by decide),
    rejection_responses_structured.2.2.1 ⟨[], 1, 0⟩ "k" 0 rateLimitResponse
      (by with_unfolding_all decide)⟩

/-- C5: a file exceeding `MaxFileSize` by one byte fails validation with the
file-too-large failure, and a file of exactly `MaxFileSize` passes the size
check and is accepted when its extension and content checks pass. -/
theorem validateFile_size_boundary (config : FileUploadConfig) (fh1 fh2 : FileHeader)
    (h1 : fh1.size = config.MaxFileSize + 1)
    (h2 : fh2.size = config.MaxFileSize)
    (hext : (filepathExt fh2.filename).map Char.toLower ∈ config.AllowedExts)
    (hne : fh2.content.length ≠ 0)
    (hct : detectContentType (sniffBuffer fh2.content) ∈ config.AllowedTypes) :
    validateFile fh1 config = some ValidationFailure.fileTooLarge ∧
    validateFile fh2 config = none := by
  constructor
  · have hgt : config.MaxFileSize < fh1.size := by
      rw [h1]
      exact lt_add_one _
    simp [validateFile, hgt]
  · have hle : ¬ config.MaxFileSize < fh2.size := by
      rw [h2]
      exact lt_irrefl _
    simp [validateFile, hle, hext, hne, hct]

/-- Witness for C5: with a 100-byte limit, a 101-byte JPEG is rejected as too
large and a 100-byte JPEG passes. -/
theorem validateFile_size_boundary_witness :
    validateFile ⟨"a.jpg".data, 101, [0xFF, 0xD8, 0xFF]⟩
      ⟨100, ["image/jpeg"], [".jpg".data], "up".data, "file", true, 1⟩ =
      some ValidationFailure.fileTooLarge ∧
    validateFile ⟨"a.jpg".data, 100, [0xFF, 0xD8, 0xFF]⟩
      ⟨100, ["image/jpeg"], [".jpg".data], "up".data, "file", true, 1⟩ = none :=
  validateFile_size_boundary ⟨100, ["image/jpeg"], [".jpg".data], "up".data, "file", true, 1⟩
    ⟨"a.jpg".data, 101, [0xFF, 0xD8, 0xFF]⟩ ⟨"a.jpg".data, 100, [0xFF, 0xD8, 0xFF]⟩
    (by decide) (by decide) (by decide) (by decide) (by decide)

/-- C4: the content check classifies a file from (at most) the first 512 bytes
of its actual content — two files with the same 512-byte content prefix get the
same sniffed type, whatever their names or declared types — and a file whose
sniffed type is not allowed is rejected with the content-type failure even when
its size and extension checks pass; in particular an executable renamed to
`.jpg` is rejected by the image configuration although its extension is
allowed. -/
theorem validateFile_sniffs_content (config : FileUploadConfig) (fh fh2 : FileHeader)
    (hsize : ¬ config.MaxFileSize < fh.size)
    (hext : (filepathExt fh.filename).map Char.toLower ∈ config.AllowedExts)
    (hne : fh.content.length ≠ 0)
    (hsniff : ¬ detectContentType (sniffBuffer fh.content) ∈ config.AllowedTypes)
    (hpre : fh2.content.take 512 = fh.content.take 512) :
    validateFile fh config = some ValidationFailure.disallowedContentType ∧
    detectContentType (sniffBuffer fh2.content) =
      detectContentType (sniffBuffer fh.content) ∧
    validateFile ⟨"malware.jpg".data, 1000, 0x4D :: 0x5A :: List.replicate 62 0⟩
      ImageUploadConfig = some ValidationFailure.disallowedContentType ∧
    (filepathExt "malware.jpg".data).map Char.toLower ∈ ImageUploadConfig.AllowedExts := by
  refine ⟨?_, ?_, by decide, by decide⟩
  · simp [validateFile, hsize, hext, hne, hsniff]
  · rw [sniffBuffer, sniffBuffer, hpre]

/-- Witness for C4: an executable blob named `m.jpg` passes the size and
extension checks of a small image configuration but is rejected by the content
sniff; a same-content file under another name sniffs identically. -/
theorem validateFile_sniffs_content_witness :
    validateFile ⟨"m.jpg".data, 4, [0x4D, 0x5A, 0x90, 0x00]⟩
      ⟨100, ["image/jpeg"], [".jpg".data], "up".data, "file", true, 1⟩ =
      some ValidationFailure.disallowedContentType ∧
    detectContentType (sniffBuffer [0x4D, 0x5A, 0x90, 0x00]) =
      detectContentType (sniffBuffer [0x4D, 0x5A, 0x90, 0x00]) ∧
    validateFile ⟨"malware.jpg".data, 1000, 0x4D :: 0x5A :: List.replicate 62 0⟩
      ImageUploadConfig = some ValidationFailure.disallowedContentType ∧
    (filepathExt "malware.jpg".data).map Char.toLower ∈ ImageUploadConfig.AllowedExts :=
  validateFile_sniffs_content
    ⟨100, ["image/jpeg"], [".jpg".data], "up".data, "file", true, 1⟩
    ⟨"m.jpg".data, 4, [0x4D, 0x5A, 0x90, 0x00]⟩
    ⟨"other.bin".data, 4, [0x4D, 0x5A, 0x90, 0x00]⟩
    (by decide) (by decide) (by decide) (by decide) (by decide)

/-- C2: if any file of a multipart request fails any validation check, the
upload middleware aborts with a 4xx response and the list of files written to
disk is empty — persistence never starts before all files validate. -/
theorem fileUploadMiddleware_all_or_nothing (config : FileUploadConfig)
    (files : List FileHeader) (mkdirOk : Bool) (saveOk : FileHeader → Bool)
    (timestamp : ℤ) (genId : ℕ → List Char) (fh : FileHeader)
    (hmem : fh ∈ files) (hfail : validateFile fh config ≠ none) :
    ∃ resp, fileUploadMiddleware config files mkdirOk saveOk timestamp genId =
      UploadResult.abort resp [] := by
  have hlen : files.length ≠ 0 := by
    intro h
    rw [List.length_eq_zero] at h
    subst h
    exact absurd hmem (List.not_mem_nil fh)
  rw [fileUploadMiddleware, if_neg (fun hc => hlen (And.right hc))]
  by_cases hmax : config.MaxFiles < files.length
  · rw [if_pos hmax]
    exact ⟨_, rfl⟩
  · rw [if_neg hmax]
    cases hfind : files.findSome? (fun f => validateFile f config) with
    | some f =>
      exact ⟨_, rfl⟩
    | none =>
      exact absurd (List.findSome?_eq_none_iff.mp hfind fh hmem) hfail

/-- Witness for C2: a single file with a disallowed extension makes the
middleware abort with nothing written. -/
theorem fileUploadMiddleware_all_or_nothing_witness :
    ∃ resp, fileUploadMiddleware
      ⟨100, ["image/jpeg"], [".jpg".data], "up".data, "file", true, 1⟩
      [⟨"a.exe".data, 1, [1]⟩] true (fun _ => true) 0 (fun _ => "id".data) =
      UploadResult.abort resp [] :=
  fileUploadMiddleware_all_or_nothing
    ⟨100, ["image/jpeg"], [".jpg".data], "up".data, "file", true, 1⟩
    [⟨"a.exe".data, 1, [1]⟩] true (fun _ => true) 0 (fun _ => "id".data)
    ⟨"a.exe".data, 1, [1]⟩ (by decide) (by decide)

/-- Helper for C10: whenever the persistence loop hands control on, the context
value it produced is exactly the string list of the saved paths. -/
theorem saveFiles_next_strList (config : FileUploadConfig) (mkdirOk : Bool)
    (saveOk : FileHeader → Bool) (ts : ℤ) (genId : ℕ → List Char) :
    ∀ (files : List FileHeader) (i : ℕ) (acc written : List (List Char))
      (ctx : ContextValue),
      saveFiles config mkdirOk saveOk ts genId files i acc =
        UploadResult.next written ctx →
      ctx = ContextValue.strList written
  | [], i, acc, written, ctx, h => by
    rw [saveFiles] at h
    injection h with h1 h2
    rw [← h2, h1]
  | fh :: rest, i, acc, written, ctx, h => by
    simp only [saveFiles] at h
    split at h
    · cases h
    · split at h
      · cases h
      · exact saveFiles_next_strList config mkdirOk saveOk ts genId rest (i + 1) _
          written ctx h

/-- C10: whenever the upload middleware passes control on, the value it stored
under `uploadedFiles` is the list of slash-normalized saved-path strings, and
the handler's unchecked assertion of a multipart file-header list on that value
fails. -/
theorem uploadedFiles_type_mismatch (config : FileUploadConfig)
    (files : List FileHeader) (mkdirOk : Bool) (saveOk : FileHeader → Bool)
    (ts : ℤ) (genId : ℕ → List Char) (written : List (List Char))
    (ctx : ContextValue)
    (h : fileUploadMiddleware config files mkdirOk saveOk ts genId =
      UploadResult.next written ctx) :
    ctx = ContextValue.strList written ∧ assertFileHeaders ctx = none := by
  rw [fileUploadMiddleware] at h
  split at h
  · cases h
  · split at h
    · cases h
    · split at h
      · cases h
      · have hctx := saveFiles_next_strList config mkdirOk saveOk ts genId files 0 []
          written ctx h
        exact ⟨hctx, by rw [hctx]; rfl⟩

/-- Witness for C10: a successful single-file upload stores the saved-path
string list in the context, on which the handler's assertion yields nothing. -/
theorem uploadedFiles_type_mismatch_witness :
    ContextValue.strList ["up/a_0_id.jpg".data] =
      ContextValue.strList ["up/a_0_id.jpg".data] ∧
    assertFileHeaders (ContextValue.strList ["up/a_0_id.jpg".data]) = none :=
  uploadedFiles_type_mismatch
    ⟨100, ["image/jpeg"], [".jpg".data], "up".data, "file", true, 1⟩
    [⟨"a.jpg".data, 10, [0xFF, 0xD8, 0xFF]⟩] true (fun _ => true) 0
    (fun _ => "id".data) ["up/a_0_id.jpg".data]
    (ContextValue.strList ["up/a_0_id.jpg".data]) (by decide)

/-- C9: the generated stored filename starts with the original base name (the
original filename with its extension removed), contains the decimal timestamp
observed at generation time and the supplied unique identifier, and ends with
the original filename's extension. -/
theorem generateUniqueFilename_shape (o : List Char) (ts : ℤ) (id : List Char) :
    (o.take (o.length - (filepathExt o).length)) <+: generateUniqueFilename o ts id ∧
    (toString ts).data <:+: generateUniqueFilename o ts id ∧
    id <:+: generateUniqueFilename o ts id ∧
    filepathExt o <:+ generateUniqueFilename o ts id := by
  refine ⟨⟨'_' :: (toString ts).data ++ '_' :: id ++ filepathExt o, ?_⟩,
    ⟨o.take (o.length - (filepathExt o).length) ++ ['_'], '_' :: id ++ filepathExt o, ?_⟩,
    ⟨o.take (o.length - (filepathExt o).length) ++ '_' :: (toString ts).data ++ ['_'],
      filepathExt o, ?_⟩,
    ⟨o.take (o.length - (filepathExt o).length) ++ '_' :: (toString ts).data ++ '_' :: id,
      ?_⟩⟩ <;>
  simp [generateUniqueFilename, List.append_assoc]

end GoStarter
